import Mathlib

/-!
# Verification of the 2DA decoding core of reference-site

Shallow embedding of the decoding pipeline in
src/reference-app/src/utils/2daParser.ts: the parse2DAFile decoder
(line splitting, per-line tokenizer with quoting, row rejection,
value coercion) and the exportToCSV serializer, together with a
spec-modelled String-Reference Resolver (its implementation is not
part of the repository snapshot; only the specification describes it).

JavaScript numbers are modelled as exact rationals; numeric literals
reaching the decoder match the strict pattern minus-sign, digits,
optional fraction, for which double rounding is irrelevant at the
values exercised here. JavaScript strings are modelled as Lean
strings over their character lists.
-/

/-- A JavaScript cell value: either a number or a string
(the `string | number` union of the TableRow interface). -/
inductive Value where
  | num (q : ℚ)
  | str (s : String)
deriving DecidableEq, Repr

/-- A decoded row: the integer id plus the data cells, in write order
(interface TableRow of 2daParser.ts). -/
structure TableRow where
  id : Int
  cells : List (String × Value)
deriving DecidableEq, Repr

/-- Columns plus rows (interface TableData of 2daParser.ts). -/
structure TableData where
  columns : List String
  rows : List TableRow
deriving DecidableEq, Repr

/-- The mutable loop state of the row loop of parse2DAFile:
the rows pushed so far and the two counters. -/
structure ParseState where
  rows : List TableRow
  rowsProcessed : Nat
  rowsSkipped : Nat
deriving DecidableEq, Repr

/-- JavaScript whitespace characters relevant to text split from a
file body: space, tab, newline, carriage return, vertical tab,
form feed. -/
def isJsWs (c : Char) : Bool :=
  c == ' ' || c == '\t' || c == '\n' || c == '\r' ||
  c == Char.ofNat 11 || c == Char.ofNat 12

/-- String.prototype.trim: drop whitespace at both ends. -/
def trimJS (s : String) : String :=
  String.mk (((s.toList.dropWhile isJsWs).reverse.dropWhile isJsWs).reverse)

/-- Split a character list into maximal runs of non-whitespace
characters; models trimmed.split with a whitespace-run pattern as
applied to the already-trimmed header line, where no leading or
trailing empty fields can arise. -/
def wordsWs : List Char → List Char → List String
  | [], cur => if cur = [] then [] else [String.mk cur]
  | c :: rest, cur =>
    if isJsWs c then
      (if cur = [] then wordsWs rest [] else String.mk cur :: wordsWs rest [])
    else wordsWs rest (cur ++ [c])

/-- Header decoding: the whitespace-separated column names. -/
def splitWs (s : String) : List String := wordsWs s.toList []

/-- Numeric value of a list of decimal digit characters. -/
def natFromDigits (cs : List Char) : Nat :=
  cs.foldl (fun a c => a * 10 + (c.toNat - 48)) 0

/-- Longest leading run of decimal digits, as a number; none when the
run is empty. -/
def leadingDigits (cs : List Char) : Option Nat :=
  let ds := cs.takeWhile Char.isDigit
  if ds.isEmpty then none else some (natFromDigits ds)

/-- JavaScript parseInt with radix 10: skip leading whitespace, take an
optional sign and then the longest digit run; NaN (none) when no digit
follows. -/
def parseIntJS (s : String) : Option Int :=
  let cs := s.toList.dropWhile isJsWs
  match cs with
  | '-' :: rest => (leadingDigits rest).map (fun n => -(n : Int))
  | '+' :: rest => (leadingDigits rest).map (fun n => (n : Int))
  | _ => (leadingDigits cs).map (fun n => (n : Int))

/-- The per-line tokenizer of parse2DAFile (lines 82-120): a double
quote toggles the quoted state and is kept in the token; a space
outside quotes ends the current token when one is open (runs of spaces
act as one separator, and the inner space-skipping loop of the source
is equivalent to re-entering this loop with an empty current token);
every other character is accumulated. The trailing token is emitted
when non-empty. -/
def tokAux : List Char → List Char → Bool → List String
  | [], cur, _ => if cur = [] then [] else [String.mk cur]
  | c :: rest, cur, inQ =>
    if c = '"' then tokAux rest (cur ++ [c]) (!inQ)
    else if c = ' ' ∧ inQ = false then
      (if cur = [] then tokAux rest [] inQ else String.mk cur :: tokAux rest [] inQ)
    else tokAux rest (cur ++ [c]) inQ

/-- Tokenize one data line, starting outside quotes with an empty
current token (the leading-space skip of the source is the empty-token
space case). -/
def tokenizeLine (line : String) : List String := tokAux line.toList [] false

/-- Partial scan: the tokens emitted while consuming a character list,
together with the current-token buffer and quoted state afterwards. -/
def scanPartial : List Char → List Char → Bool → List String × List Char × Bool
  | [], cur, inQ => ([], cur, inQ)
  | c :: rest, cur, inQ =>
    if c = '"' then scanPartial rest (cur ++ [c]) (!inQ)
    else if c = ' ' ∧ inQ = false then
      (if cur = [] then scanPartial rest [] inQ
       else
         let r := scanPartial rest [] inQ
         (String.mk cur :: r.1, r.2.1, r.2.2))
    else scanPartial rest (cur ++ [c]) inQ

/-- Strip one matching pair of surrounding double quotes (lines
161-163: startsWith, endsWith and length greater than one). -/
def stripQuotes (s : String) : String :=
  let cs := s.toList
  if 1 < cs.length ∧ cs.head? = some '"' ∧ cs.getLast? = some '"' then
    String.mk ((cs.drop 1).dropLast)
  else s

/-- Remove every double-quote character (the global quote replacement
applied to the second token in the row-rejection check, line 143). -/
def removeAllQuotes (s : String) : String :=
  String.mk (s.toList.filter (fun c => !(c == '"')))

/-- The strict numeric test of line 171: optional leading minus, one
or more digits, optional dot followed by one or more digits, anchored
at both ends. -/
def numBody (cs : List Char) : Bool :=
  let ip := cs.takeWhile Char.isDigit
  let rest := cs.dropWhile Char.isDigit
  !ip.isEmpty &&
    (rest.isEmpty ||
      (match rest with
       | '.' :: frac => !frac.isEmpty && frac.all Char.isDigit
       | _ => false))

/-- Whole-string match of the strict numeric pattern: an optional
leading minus, then the digit body. -/
def isStrictNumeric (s : String) : Bool :=
  match s.toList with
  | [] => false
  | c :: rest => if c = '-' then numBody rest else numBody (c :: rest)

/-- Build the rational with the given sign, numerator and positive
denominator in lowest terms, using only kernel-reducible natural
number operations. -/
def mkRatDec (neg : Bool) (n d : Nat) (hd : 0 < d) : ℚ :=
  ⟨if neg then -((n / Nat.gcd n d : Nat) : Int) else ((n / Nat.gcd n d : Nat) : Int),
   d / Nat.gcd n d,
   by
     have hg : 0 < Nat.gcd n d := Nat.gcd_pos_of_pos_right n hd
     exact Nat.ne_of_gt
       (Nat.div_pos (Nat.le_of_dvd hd (Nat.gcd_dvd_right n d)) hg),
   by
     have hg : 0 < Nat.gcd n d := Nat.gcd_pos_of_pos_right n hd
     cases neg <;>
       simpa [Int.natAbs_neg] using Nat.coprime_div_gcd_div_gcd hg⟩

/-- Exact value of a string matching the strict numeric pattern
(models parseFloat on such strings; the result is never NaN there,
so the NaN guard of lines 172-177 is inert): integer digits, then
fraction digits scaled by the matching power of ten. -/
def parseDecimal (s : String) : ℚ :=
  let (neg, cs) :=
    match s.toList with
    | '-' :: rest => (true, rest)
    | cs => (false, cs)
  let ip := cs.takeWhile Char.isDigit
  let rest := cs.dropWhile Char.isDigit
  let fp :=
    match rest with
    | '.' :: frac => frac
    | _ => []
  mkRatDec neg (natFromDigits ip * 10 ^ fp.length + natFromDigits fp)
    (10 ^ fp.length) (Nat.pos_pow_of_pos _ (by norm_num))

/-- Quote stripping followed by placeholder normalization (lines
160-168): unwrap a surrounding quote pair, then map the four-asterisk
placeholder to the empty string. -/
def normalizeCell (raw : String) : String :=
  let v := stripQuotes raw
  if v = "****" then "" else v

/-- Full per-cell value decoding (lines 158-180): normalize, then
store a number when the value is non-empty and strictly numeric,
otherwise store the string itself. -/
def decodeCell (raw : String) : Value :=
  let v := normalizeCell raw
  if v ≠ "" ∧ isStrictNumeric v = true then Value.num (parseDecimal v)
  else Value.str v

/-- Cell construction of the column loop (lines 154-181): token at
index j pairs with column j-1, the loop stops at the shorter of the
two, and a falsy (empty) column name is skipped. -/
def buildCells (cols : List String) (parts : List String) : List (String × Value) :=
  (cols.zip (parts.drop 1)).filterMap
    (fun p => if p.1 = "" then none else some (p.1, decodeCell p.2))

/-- Build the row object: the id plus the decoded cells. -/
def mkRow (id : Int) (cols : List String) (parts : List String) : TableRow :=
  ⟨id, buildCells cols parts⟩

/-- Per-line outcome of the row loop: none exactly on the three skip
paths (no tokens; parseInt NaN on the first token; second token equal
to the placeholder after removing all quote characters), otherwise the
built row. -/
def parseRow (cols : List String) (line : String) : Option TableRow :=
  let parts := tokenizeLine line
  if parts.isEmpty then none
  else
    match parseIntJS (parts.head?.getD "0") with
    | none => none
    | some id =>
      match (parts.drop 1).head? with
      | some p =>
        if removeAllQuotes p = "****" then none
        else some (mkRow id cols parts)
      | none => some (mkRow id cols parts)

/-- One iteration of the row loop (lines 73-184): blank lines are
passed over, every other line bumps the processed counter and then
either bumps the skipped counter or pushes its row. -/
def processLine (cols : List String) (st : ParseState) (line : String) : ParseState :=
  if trimJS line = "" then st
  else
    match parseRow cols line with
    | none => ⟨st.rows, st.rowsProcessed + 1, st.rowsSkipped + 1⟩
    | some r => ⟨st.rows ++ [r], st.rowsProcessed + 1, st.rowsSkipped⟩

/-- Splitting a character list at newline characters (the split on
the newline separator applied to the file body, line 29): every
newline ends the current line, and the trailing line is always
emitted, so the empty text yields one empty line. -/
def splitLines : List Char → List Char → List String
  | [], cur => [String.mk cur]
  | c :: rest, cur =>
    if c = '\n' then String.mk cur :: splitLines rest []
    else splitLines rest (cur ++ [c])

/-- The lines of the file body. -/
def linesOf (content : String) : List String := splitLines content.toList []

/-- Line preprocessing (lines 29-46): split on newline, trim each
line, drop blank lines and the format marker. The first survivor is
the header line. -/
def dataLinesOf (content : String) : List String :=
  ((linesOf content).map trimJS).filter
    (fun t => !(t == "") && !(t == "2DA V2.0"))

/-- The decoder parse2DAFile: empty structure without a usable header,
otherwise header-derived columns behind the implicit ID column, and
the rows accumulated by the row loop. -/
def parse2DAFile (content : String) : TableData :=
  match dataLinesOf content with
  | [] => ⟨[], []⟩
  | headerLine :: dataRest =>
    let cols := splitWs (trimJS headerLine)
    ⟨"ID" :: cols, (dataRest.foldl (processLine cols) ⟨[], 0, 0⟩).rows⟩

/-- Per-line outcome including the blank-line guard of the loop body. -/
def lineRow (cols : List String) (l : String) : Option TableRow :=
  if trimJS l = "" then none else parseRow cols l

/-- The character of one decimal digit. -/
def digitChar : Nat → Char
  | 0 => '0' | 1 => '1' | 2 => '2' | 3 => '3' | 4 => '4'
  | 5 => '5' | 6 => '6' | 7 => '7' | 8 => '8' | _ => '9'

/-- Decimal digits of a number, least significant first, with a fuel
bound on the digit count (the value itself always suffices). -/
def natToRevDigitsAux : Nat → Nat → List Char
  | 0, _ => []
  | fuel + 1, n =>
    if n = 0 then [] else digitChar (n % 10) :: natToRevDigitsAux fuel (n / 10)

/-- Decimal digit characters of a natural number, most significant
first; zero renders as a single zero digit. -/
def natChars (n : Nat) : List Char :=
  if n = 0 then ['0'] else (natToRevDigitsAux n n).reverse

/-- Decimal characters of an integer, with a leading minus sign when
negative. -/
def intChars (i : Int) : List Char :=
  if i < 0 then '-' :: natChars i.natAbs else natChars i.natAbs

/-- Left-pad with zero digits to the given width. -/
def padChars (cs : List Char) (k : Nat) : List Char :=
  List.replicate (k - cs.length) '0' ++ cs

/-- Fixed-point character rendering with k fractional digits of a
rational whose denominator divides 10 to the k. -/
def renderFixedChars (q : ℚ) (k : Nat) : List Char :=
  (if q.num * ((10 ^ k / q.den : Nat) : Int) < 0 then ['-'] else []) ++
    natChars ((q.num * ((10 ^ k / q.den : Nat) : Int)).natAbs / 10 ^ k) ++
    '.' :: padChars (natChars ((q.num * ((10 ^ k / q.den : Nat) : Int)).natAbs % 10 ^ k)) k

/-- Characters of the default string conversion of a JavaScript
number in the range the decoder produces: integers render without a
fraction, other values with the shortest terminating decimal
expansion (canonical rationals never carry trailing fractional
zeros, matching double rendering). Every finite double has a
denominator dividing 10 to the 1074, so the final arm is unreachable
for values a double can hold. -/
def renderRatChars (q : ℚ) : List Char :=
  if q.den = 1 then intChars q.num
  else
    match (List.range 1075).find? (fun k => 10 ^ k % q.den == 0) with
    | some k => renderFixedChars q k
    | none => intChars q.num ++ '/' :: natChars q.den

/-- Default string conversion of a JavaScript number (the String
conversion applied during the comma join of the CSV serializer). -/
def renderRat (q : ℚ) : String := String.mk (renderRatChars q)

/-- JavaScript falsiness of a stored cell value: the empty string and
the number zero (NaN never reaches a row). -/
def isFalsy : Value → Bool
  | Value.str s => s == ""
  | Value.num q => q == 0

/-- Property read on a row object: the id field is written first, the
cells afterwards in order, and a later write to the same key wins. -/
def TableRow.lookup (r : TableRow) (key : String) : Option Value :=
  ((("id", Value.num (r.id : ℚ)) :: r.cells).reverse.find?
    (fun c => c.1 == key)).map (fun c => c.2)

/-- Single-character membership test (String.prototype.includes as
used with one-character needles). -/
def strContains (s : String) (c : Char) : Bool := s.toList.contains c

/-- Double every double-quote character (the global replacement in the
CSV escape, line 226). -/
def doubleInnerQuotes (s : String) : String :=
  String.mk (s.toList.foldr
    (fun c acc => if c = '"' then '"' :: '"' :: acc else c :: acc) [])

/-- Serialization of one present cell value (lines 223-228): falsy
values collapse to the empty string, a string containing a comma or a
double quote is wrapped in double quotes with inner quotes doubled,
and a number renders in its default form. -/
def csvCell (v : Value) : String :=
  if isFalsy v then ""
  else
    match v with
    | Value.str s =>
      if strContains s ',' || strContains s '"' then
        "\"" ++ doubleInnerQuotes s ++ "\""
      else s
    | Value.num q => renderRat q

/-- One CSV field of exportToCSV (lines 222-228): read the row value
(field name id for the ID column; an absent value is falsy) and
serialize it. -/
def csvField (r : TableRow) (col : String) : String :=
  match r.lookup (if col = "ID" then "id" else col) with
  | none => ""
  | some v => csvCell v

/-- The pure text output of exportToCSV (lines 217-231): the comma
joined columns, then one comma joined line per row, all joined by
newlines. The file download plumbing around it is browser input and
output and not modelled. -/
def exportToCSV (data : TableData) : String :=
  String.intercalate "\n"
    (String.intercalate "," data.columns ::
      data.rows.map (fun r =>
        String.intercalate "," (data.columns.map (csvField r))))

/-- Stringification preceding the escape test, as the specification
words it: the natural string form of the value. -/
def specStringify : Value → String
  | Value.str s => s
  | Value.num q => renderRat q

/-- The escape rule as the specification words it, applied to the
already stringified value. -/
def specEscape (s : String) : String :=
  if strContains s ',' || strContains s '"' then
    "\"" ++ doubleInnerQuotes s ++ "\""
  else s

/-- One cell value as the specification words it: empty when falsy,
otherwise the escape rule applied to the stringified value. -/
def specCsvCell (v : Value) : String :=
  if isFalsy v then "" else specEscape (specStringify v)

/-- One CSV field as the specification words it: the row value for
the column (field name id for ID), empty when absent or falsy, and
the escape rule applied to the stringified value. -/
def specCsvField (r : TableRow) (col : String) : String :=
  match r.lookup (if col = "ID" then "id" else col) with
  | none => ""
  | some v => specCsvCell v

/-- Modelled from the spec: the two settled string tables of the
String-Reference Resolver (section 4.2); the resolver implementation
is not part of the repository snapshot. A settled state is a pair of
id to text mappings (both empty in the fallback state). -/
structure ResolverTables where
  standard : Nat → Option String
  custom : Nat → Option String

/-- Modelled from the spec: the fixed offset constant distinguishing
the custom id space. -/
def STRREF_CUSTOM_OFFSET : Nat := 16777216

/-- Modelled from the spec: parse a reference to a non-negative
integer; digits only, at least one. -/
def parseNonNegInt (s : String) : Option Nat :=
  if s ≠ "" ∧ s.toList.all Char.isDigit then some (natFromDigits s.toList)
  else none

/-- Modelled from the spec: resolveReference over settled tables.
Unparsable references pass through unchanged; ids at or above the
offset consult the custom table at id minus offset; smaller ids
consult the standard table; a missing entry falls back to the original
numeral as text. -/
def resolveReference (t : ResolverTables) (ref : String) : String :=
  match parseNonNegInt ref with
  | none => ref
  | some id =>
    if STRREF_CUSTOM_OFFSET ≤ id then
      match t.custom (id - STRREF_CUSTOM_OFFSET) with
      | some text => text
      | none => ref
    else
      match t.standard id with
      | some text => text
      | none => ref

/-- The tables of Scenario C of the specification. -/
def scenarioTables : ResolverTables :=
  ⟨fun n => if n = 500 then some "Longsword" else none,
   fun n => if n = 1 then some "CustomSword" else none⟩

/-- The Scenario A input of the specification. -/
def scenarioA : String :=
  "2DA V2.0\n\nLABEL NAME\n0 \"Foo\" \"A foo item\"\n1 **** \"Skipped\"\n2 \"Bar\" ****"

/-- A table with a reference column (Name) holding a digits-only
value. -/
def refColumnInput : String := "2DA V2.0\nLABEL Name\n0 x 123"

/-- A data line whose first token has a fractional part. -/
def fractionalIdInput : String := "2DA V2.0\nLABEL\n1.5 Foo"

/-- A data line whose second token contains an inner quote pair before
the placeholder asterisks. -/
def unpairedQuoteInput : String := "2DA V2.0\nLABEL\n0 \"\"****"

/-- Two surviving data lines with the same id. -/
def duplicateIdInput : String := "2DA V2.0\nLABEL\n5 A\n5 B"

/-! ## Helper lemmas -/

theorem string_ne_of_toList_ne {s : String} (h : s.toList ≠ []) : s ≠ "" := by
  intro hcon
  subst hcon
  exact h rfl

theorem numBody_of_digits {cs : List Char} (h1 : cs ≠ [])
    (h2 : cs.all Char.isDigit = true) : numBody cs = true := by
  have hall : ∀ c ∈ cs, Char.isDigit c = true := List.all_eq_true.mp h2
  have ht : cs.takeWhile Char.isDigit = cs := List.takeWhile_eq_self_iff.mpr hall
  have hd : cs.dropWhile Char.isDigit = [] := List.dropWhile_eq_nil_iff.mpr hall
  unfold numBody
  simp [ht, hd, h1]

theorem isStrictNumeric_of_digits {s : String} (h1 : s.toList ≠ [])
    (h2 : s.toList.all Char.isDigit = true) : isStrictNumeric s = true := by
  cases hcs : s.toList with
  | nil => exact absurd hcs h1
  | cons c rest =>
    rw [hcs] at h2
    have hcd : c.isDigit = true := List.all_eq_true.mp h2 c (List.mem_cons_self c rest)
    have hc : c ≠ '-' := by
      rintro rfl
      exact absurd hcd (by decide)
    unfold isStrictNumeric
    rw [hcs]
    show (if c = '-' then numBody rest else numBody (c :: rest)) = true
    rw [if_neg hc]
    exact numBody_of_digits (by simp) h2

theorem mkRatDec_eq_div (neg : Bool) (n d : Nat) (hd : 0 < d) :
    mkRatDec neg n d hd = if neg then -((n : ℚ) / (d : ℚ)) else (n : ℚ) / (d : ℚ) := by
  have hg : 0 < Nat.gcd n d := Nat.gcd_pos_of_pos_right n hd
  have hgZ : ((Nat.gcd n d : Nat) : Int) ≠ 0 :=
    Int.natCast_ne_zero.mpr (Nat.ne_of_gt hg)
  have hn : ((n / Nat.gcd n d : Nat) : Int) * ((Nat.gcd n d : Nat) : Int) = (n : Int) := by
    exact_mod_cast Nat.div_mul_cancel (Nat.gcd_dvd_left n d)
  have hdd : ((d / Nat.gcd n d : Nat) : Int) * ((Nat.gcd n d : Nat) : Int) = (d : Int) := by
    exact_mod_cast Nat.div_mul_cancel (Nat.gcd_dvd_right n d)
  have hbase :
      Rat.divInt ((n / Nat.gcd n d : Nat) : Int) ((d / Nat.gcd n d : Nat) : Int) =
        (n : ℚ) / (d : ℚ) := by
    rw [← Rat.divInt_mul_right hgZ, hn, hdd, Rat.divInt_eq_div]
    simp only [Int.cast_natCast]
  unfold mkRatDec
  rw [Rat.mk'_eq_divInt]
  cases neg with
  | false =>
    simpa using hbase
  | true =>
    simp only [eq_self_iff_true, if_true]
    rw [← Rat.neg_divInt, hbase]

/-! ## Claims -/

/-- C7 (confirmed): decoding the Scenario A input yields columns ID,
LABEL, NAME, the row with id 0 (Foo, A foo item), no row for id 1,
and the row with id 2 (Bar, empty NAME); in general every cell whose
quote-unwrapped value is exactly the four-asterisk placeholder is
normalized to the empty string. -/
theorem claim_C7 :
    parse2DAFile scenarioA =
      ⟨["ID", "LABEL", "NAME"],
       [⟨0, [("LABEL", Value.str "Foo"), ("NAME", Value.str "A foo item")]⟩,
        ⟨2, [("LABEL", Value.str "Bar"), ("NAME", Value.str "")]⟩]⟩ ∧
    ∀ raw : String, stripQuotes raw = "****" → decodeCell raw = Value.str "" := by
  refine ⟨by decide, ?_⟩
  intro raw h
  unfold decodeCell normalizeCell
  rw [h]
  simp

/-- Witness for C7: the quoted placeholder strips to the placeholder
and decodes to the empty string. -/
theorem claim_C7_witness :
    stripQuotes "\"****\"" = "****" ∧ decodeCell "\"****\"" = Value.str "" :=
  ⟨by decide, claim_C7.2 "\"****\"" (by decide)⟩

/-- C6 (confirmed): after quote-stripping and placeholder
normalization, a non-empty value matching the strict numeric pattern
is stored as the parsed number and every other non-empty value as the
string itself; concretely 12 is stored as the number 12, 12.5 as the
number 12.5 and abc as the string abc. -/
theorem claim_C6 (raw : String) :
    (normalizeCell raw ≠ "" → isStrictNumeric (normalizeCell raw) = true →
      decodeCell raw = Value.num (parseDecimal (normalizeCell raw))) ∧
    (normalizeCell raw ≠ "" → isStrictNumeric (normalizeCell raw) = false →
      decodeCell raw = Value.str (normalizeCell raw)) ∧
    decodeCell "12" = Value.num 12 ∧
    decodeCell "12.5" = Value.num (12.5 : ℚ) ∧
    decodeCell "abc" = Value.str "abc" := by
  have h125 : parseDecimal "12.5" = (12.5 : ℚ) := by
    show mkRatDec false 125 10 (by norm_num) = (12.5 : ℚ)
    rw [mkRatDec_eq_div]
    norm_num
  refine ⟨?_, ?_, by decide, ?_, by decide⟩
  · intro h1 h2
    unfold decodeCell
    rw [if_pos ⟨h1, h2⟩]
  · intro h1 h2
    unfold decodeCell
    rw [if_neg]
    rintro ⟨-, hcon⟩
    rw [h2] at hcon
    exact Bool.false_ne_true hcon
  · rw [← h125]
    decide

/-- Witness for C6: the token 12 is non-empty, strictly numeric, and
stored as the parsed number. -/
theorem claim_C6_witness :
    normalizeCell "12" ≠ "" ∧ isStrictNumeric (normalizeCell "12") = true ∧
    decodeCell "12" = Value.num (parseDecimal (normalizeCell "12")) :=
  ⟨by decide, by decide, (claim_C6 "12").1 (by decide) (by decide)⟩

/-- C2 (confirmed, spec-modelled resolver): a reference parsing to a
non-negative integer id resolves through the custom table at id minus
the offset when id reaches the offset and through the standard table
below it, falling back to the original numeral in both cases; the
Scenario C tables resolve 500 to Longsword, 16777217 to CustomSword
and 999 to itself. -/
theorem claim_C2 (t : ResolverTables) (ref : String) (id : Nat)
    (h : parseNonNegInt ref = some id) :
    (STRREF_CUSTOM_OFFSET ≤ id →
      resolveReference t ref = (t.custom (id - STRREF_CUSTOM_OFFSET)).getD ref) ∧
    (id < STRREF_CUSTOM_OFFSET →
      resolveReference t ref = (t.standard id).getD ref) ∧
    resolveReference scenarioTables "500" = "Longsword" ∧
    resolveReference scenarioTables "16777217" = "CustomSword" ∧
    resolveReference scenarioTables "999" = "999" := by
  refine ⟨?_, ?_, by decide, by decide, by decide⟩
  · intro hle
    unfold resolveReference
    rw [h]
    simp only [if_pos hle]
    cases t.custom (id - STRREF_CUSTOM_OFFSET) <;> rfl
  · intro hlt
    unfold resolveReference
    rw [h]
    simp only [if_neg (Nat.not_le_of_lt hlt)]
    cases t.standard id <;> rfl

/-- Witness for C2: resolving 500 against the Scenario C tables goes
through the standard table. -/
theorem claim_C2_witness :
    parseNonNegInt "500" = some 500 ∧
    resolveReference scenarioTables "500" = (scenarioTables.standard 500).getD "500" :=
  ⟨by decide, (claim_C2 scenarioTables "500" 500 (by decide)).2.1 (by decide)⟩

/-- C1 counterexample: in the table with reference column Name, the
digits-only token 123 is stored as the number 123 — not as any
resolver text, which would be a string value. -/
theorem claim_C1_counterexample :
    (parse2DAFile refColumnInput).rows =
      [⟨0, [("LABEL", Value.str "x"), ("Name", Value.num 123)]⟩] ∧
    Value.num 123 ≠ Value.str "123" := by
  decide

/-- C1 (amended): a token whose quote-stripped value is non-empty and
composed solely of digits is stored as the parsed number, in every
column alike; the decoder performs no string-reference resolution. -/
theorem claim_C1_amended (raw : String)
    (h1 : (stripQuotes raw).toList ≠ [])
    (h2 : (stripQuotes raw).toList.all Char.isDigit = true) :
    decodeCell raw = Value.num (parseDecimal (stripQuotes raw)) := by
  have hne : stripQuotes raw ≠ "****" := by
    intro hcon
    rw [hcon] at h2
    exact absurd h2 (by decide)
  have hnorm : normalizeCell raw = stripQuotes raw := by
    unfold normalizeCell
    rw [if_neg hne]
  unfold decodeCell
  rw [hnorm, if_pos ⟨string_ne_of_toList_ne h1, isStrictNumeric_of_digits h1 h2⟩]

/-- Witness for C1 (amended): the bare token 123 decodes to the
number it parses to. -/
theorem claim_C1_amended_witness :
    (stripQuotes "123").toList ≠ [] ∧
    (stripQuotes "123").toList.all Char.isDigit = true ∧
    decodeCell "123" = Value.num (parseDecimal (stripQuotes "123")) :=
  ⟨by decide, by decide, claim_C1_amended "123" (by decide) (by decide)⟩

/-- C3 counterexample: the data line whose first token is 1.5 — a
token that fails strict integer parsing — is not discarded: parseInt
accepts its leading integer part and the decoder keeps the row with
id 1. -/
theorem claim_C3_counterexample :
    tokenizeLine "1.5 Foo" = ["1.5", "Foo"] ∧
    parseIntJS "1.5" = some 1 ∧
    parse2DAFile fractionalIdInput =
      ⟨["ID", "LABEL"], [⟨1, [("LABEL", Value.str "Foo")]⟩]⟩ := by
  decide

/-- C3 (amended): a non-blank data line is discarded — no output row,
skipped counter bumped, no error — when its tokens are empty or when
JavaScript parseInt fails on the first token, that is when the token
has no leading integer numeral after optional sign; a first token
carrying a fractional part or trailing non-digits after a leading
integer is instead accepted with that leading integer as id. -/
theorem claim_C3_amended (cols : List String) (st : ParseState) (line : String)
    (hne : trimJS line ≠ "")
    (h : tokenizeLine line = [] ∨
      parseIntJS ((tokenizeLine line).head?.getD "0") = none) :
    processLine cols st line = ⟨st.rows, st.rowsProcessed + 1, st.rowsSkipped + 1⟩ := by
  have hrow : parseRow cols line = none := by
    unfold parseRow
    by_cases he : (tokenizeLine line).isEmpty = true
    · simp [he]
    · rcases h with h | h
      · exact absurd (by simp [h]) he
      · simp [he, h]
  unfold processLine
  rw [if_neg hne, hrow]

/-- Witness for C3 (amended): the line abc has no parsable id and is
counted as skipped without producing a row. -/
theorem claim_C3_amended_witness :
    trimJS "abc" ≠ "" ∧
    parseIntJS ((tokenizeLine "abc").head?.getD "0") = none ∧
    processLine [] ⟨[], 0, 0⟩ "abc" = ⟨[], 1, 1⟩ :=
  ⟨by decide, by decide,
   claim_C3_amended [] ⟨[], 0, 0⟩ "abc" (by decide) (Or.inr (by decide))⟩

/-- C4 counterexample: the second token of the line 0 followed by a
doubled quote and four asterisks strips to a value different from the
placeholder under surrounding-pair quote-stripping, yet the decoder
discards the row, because the source removes every quote character
before the comparison. -/
theorem claim_C4_counterexample :
    tokenizeLine "0 \"\"****" = ["0", "\"\"****"] ∧
    stripQuotes "\"\"****" ≠ "****" ∧
    removeAllQuotes "\"\"****" = "****" ∧
    parse2DAFile unpairedQuoteInput = ⟨["ID", "LABEL"], []⟩ := by
  decide

/-- C4 (amended): a tokenized data line with a parsable id and a
second token is discarded exactly when the second token with every
double-quote character removed equals the four-asterisk placeholder. -/
theorem claim_C4_amended (cols : List String) (line : String)
    (p0 p1 : String) (ps : List String)
    (htok : tokenizeLine line = p0 :: p1 :: ps) (id : Int)
    (hid : parseIntJS p0 = some id) :
    (parseRow cols line = none ↔ removeAllQuotes p1 = "****") := by
  unfold parseRow
  rw [htok]
  simp only [List.isEmpty_cons, List.head?_cons, Option.getD_some, hid,
    List.drop_succ_cons, List.drop_zero]
  split <;> simp_all

/-- Witness for C4 (amended): the rejection equivalence at the
counterexample line. -/
theorem claim_C4_amended_witness :
    tokenizeLine "0 \"\"****" = ["0", "\"\"****"] ∧ parseIntJS "0" = some 0 ∧
    (parseRow [] "0 \"\"****" = none ↔ removeAllQuotes "\"\"****" = "****") :=
  ⟨by decide, by decide,
   claim_C4_amended [] "0 \"\"****" "0" "\"\"****" [] (by decide) 0 (by decide)⟩

theorem tokAux_append (pre : List Char) :
    ∀ (rest cur : List Char) (inQ : Bool),
      tokAux (pre ++ rest) cur inQ =
        (scanPartial pre cur inQ).1 ++
          tokAux rest (scanPartial pre cur inQ).2.1 (scanPartial pre cur inQ).2.2 := by
  induction pre with
  | nil =>
    intro rest cur inQ
    simp [scanPartial]
  | cons c cs ih =>
    intro rest cur inQ
    simp only [List.cons_append]
    simp only [tokAux, scanPartial]
    by_cases h1 : c = '"'
    · simp only [if_pos h1]
      exact ih rest (cur ++ [c]) (!inQ)
    · simp only [if_neg h1]
      by_cases h2 : c = ' ' ∧ inQ = false
      · simp only [if_pos h2]
        by_cases h3 : cur = []
        · simp only [if_pos h3]
          exact ih rest [] inQ
        · simp only [if_neg h3]
          rw [ih rest [] inQ]
          simp
      · simp only [if_neg h2]
        exact ih rest (cur ++ [c]) inQ

theorem tokAux_quoted (cs : List Char) :
    ∀ cur, cur ≠ [] → (∀ c ∈ cs, c ≠ '"') →
      tokAux cs cur true = [String.mk (cur ++ cs)] := by
  induction cs with
  | nil =>
    intro cur h1 _
    simp [tokAux, h1]
  | cons c rest ih =>
    intro cur h1 h2
    have hc : c ≠ '"' := h2 c (List.mem_cons_self c rest)
    unfold tokAux
    rw [if_neg hc, if_neg (fun h => absurd h.2 (by decide))]
    rw [ih (cur ++ [c]) (by simp) (fun d hd => h2 d (List.mem_cons_of_mem c hd))]
    simp

/-- C9 (confirmed): when a double quote opens a quoted span that is
never closed before the end of the line, every remaining character of
the line — spaces included — is accumulated into the final token;
tokenization is a total function, so it terminates and never raises
on any input line. -/
theorem claim_C9 (pre suffix : List Char)
    (hq : (scanPartial pre [] false).2.2 = false)
    (hs : ∀ c ∈ suffix, c ≠ '"') :
    tokenizeLine (String.mk (pre ++ '"' :: suffix)) =
      (scanPartial pre [] false).1 ++
        [String.mk ((scanPartial pre [] false).2.1 ++ '"' :: suffix)] := by
  have hstep : ∀ cur : List Char,
      tokAux ('"' :: suffix) cur false = tokAux suffix (cur ++ ['"']) true := by
    intro cur
    simp [tokAux]
  unfold tokenizeLine
  rw [show (String.mk (pre ++ '"' :: suffix)).toList = pre ++ '"' :: suffix from rfl]
  rw [tokAux_append pre ('"' :: suffix) [] false, hq]
  congr 1
  rw [hstep, tokAux_quoted suffix _ (by simp) hs]
  simp

/-- Witness for C9: the line 0 followed by an unterminated quoted
span swallows the rest of the line, space included, into the final
token. -/
theorem claim_C9_witness :
    (scanPartial ['0', ' '] [] false).2.2 = false ∧
    tokenizeLine (String.mk (['0', ' '] ++ '"' :: "abc def".toList)) =
      (scanPartial ['0', ' '] [] false).1 ++
        [String.mk ((scanPartial ['0', ' '] [] false).2.1 ++ '"' :: "abc def".toList)] :=
  ⟨by decide, claim_C9 ['0', ' '] "abc def".toList (by decide) (by decide)⟩

theorem rows_foldl (cols : List String) :
    ∀ (lines : List String) (st : ParseState),
      (lines.foldl (processLine cols) st).rows =
        st.rows ++ lines.filterMap (lineRow cols) := by
  intro lines
  induction lines with
  | nil =>
    intro st
    simp
  | cons l ls ih =>
    intro st
    rw [List.foldl_cons]
    by_cases h1 : trimJS l = ""
    · have hpl : processLine cols st l = st := by
        unfold processLine
        rw [if_pos h1]
      have hlr : lineRow cols l = none := by
        unfold lineRow
        rw [if_pos h1]
      rw [hpl, List.filterMap_cons, hlr, ih st]
    · cases hr : parseRow cols l with
      | none =>
        have hpl : processLine cols st l =
            ⟨st.rows, st.rowsProcessed + 1, st.rowsSkipped + 1⟩ := by
          unfold processLine
          rw [if_neg h1, hr]
        have hlr : lineRow cols l = none := by
          unfold lineRow
          rw [if_neg h1]
          exact hr
        rw [hpl, List.filterMap_cons, hlr, ih]
      | some r =>
        have hpl : processLine cols st l =
            ⟨st.rows ++ [r], st.rowsProcessed + 1, st.rowsSkipped⟩ := by
          unfold processLine
          rw [if_neg h1, hr]
        have hlr : lineRow cols l = some r := by
          unfold lineRow
          rw [if_neg h1]
          exact hr
        rw [hpl, List.filterMap_cons, hlr, ih]
        simp

/-- C10 (confirmed): the decoder neither deduplicates nor reorders
rows by id — the output row sequence is exactly the surviving source
lines in original order, and two surviving lines with the same first
token produce two rows with the same id. -/
theorem claim_C10 :
    (∀ (content : String) (h : String) (rest : List String),
      dataLinesOf content = h :: rest →
      (parse2DAFile content).rows =
        rest.filterMap (lineRow (splitWs (trimJS h)))) ∧
    parse2DAFile duplicateIdInput =
      ⟨["ID", "LABEL"],
       [⟨5, [("LABEL", Value.str "A")]⟩, ⟨5, [("LABEL", Value.str "B")]⟩]⟩ := by
  constructor
  · intro content h rest hd
    unfold parse2DAFile
    rw [hd]
    show (rest.foldl (processLine (splitWs (trimJS h))) ⟨[], 0, 0⟩).rows = _
    simpa using rows_foldl (splitWs (trimJS h)) rest ⟨[], 0, 0⟩
  · decide

/-- Witness for C10: the two surviving duplicate-id lines map in
order through the per-line decoder. -/
theorem claim_C10_witness :
    dataLinesOf duplicateIdInput = "LABEL" :: ["5 A", "5 B"] ∧
    (parse2DAFile duplicateIdInput).rows =
      ["5 A", "5 B"].filterMap (lineRow (splitWs (trimJS "LABEL"))) :=
  ⟨by decide, claim_C10.1 duplicateIdInput "LABEL" ["5 A", "5 B"] (by decide)⟩

/-- C5 (confirmed): the decoder is a total function; whenever a
usable header exists — some line non-blank after trimming and
different from the format marker — the output columns are ID followed
by the header names in source order, and otherwise the result is the
empty structure. -/
theorem claim_C5 (content : String) :
    ((∃ l ∈ linesOf content, trimJS l ≠ "" ∧ trimJS l ≠ "2DA V2.0") →
      ∃ h rest, dataLinesOf content = h :: rest ∧
        (parse2DAFile content).columns = "ID" :: splitWs (trimJS h)) ∧
    ((∀ l ∈ linesOf content, trimJS l = "" ∨ trimJS l = "2DA V2.0") →
      parse2DAFile content = ⟨[], []⟩) := by
  constructor
  · rintro ⟨l, hl, h1, h2⟩
    cases hd : dataLinesOf content with
    | nil =>
      exfalso
      have hmem : trimJS l ∈ dataLinesOf content := by
        unfold dataLinesOf
        refine List.mem_filter.mpr ⟨List.mem_map_of_mem trimJS hl, ?_⟩
        simp [h1, h2]
      rw [hd] at hmem
      exact absurd hmem (List.not_mem_nil _)
    | cons h rest =>
      refine ⟨h, rest, rfl, ?_⟩
      unfold parse2DAFile
      rw [hd]
  · intro hall
    have hd : dataLinesOf content = [] := by
      unfold dataLinesOf
      apply List.filter_eq_nil_iff.mpr
      intro a ha
      rcases List.mem_map.mp ha with ⟨l', hl', rfl⟩
      rcases hall l' hl' with h | h <;> simp [h]
    unfold parse2DAFile
    rw [hd]

/-- Witness for C5: Scenario A has a usable header and its columns
start with ID. -/
theorem claim_C5_witness :
    (∃ l ∈ linesOf scenarioA, trimJS l ≠ "" ∧ trimJS l ≠ "2DA V2.0") ∧
    ∃ h rest, dataLinesOf scenarioA = h :: rest ∧
      (parse2DAFile scenarioA).columns = "ID" :: splitWs (trimJS h) :=
  ⟨by decide, (claim_C5 scenarioA).1 (by decide)⟩

theorem digitChar_isDigit (n : Nat) : (digitChar n).isDigit = true := by
  unfold digitChar
  split <;> decide

theorem natToRevDigitsAux_digits :
    ∀ (fuel n : Nat) (c : Char), c ∈ natToRevDigitsAux fuel n → c.isDigit = true := by
  intro fuel
  induction fuel with
  | zero =>
    intro n c hc
    simp [natToRevDigitsAux] at hc
  | succ f ih =>
    intro n c hc
    unfold natToRevDigitsAux at hc
    split at hc
    · simp at hc
    · rcases List.mem_cons.mp hc with rfl | hmem
      · exact digitChar_isDigit _
      · exact ih _ _ hmem

theorem natChars_digits (n : Nat) : ∀ c ∈ natChars n, c.isDigit = true := by
  intro c hc
  unfold natChars at hc
  split at hc
  · simp at hc
    subst hc
    decide
  · exact natToRevDigitsAux_digits n n c (List.mem_reverse.mp hc)

theorem goodChar_digit {c : Char} (h : c.isDigit = true) : c ≠ ',' ∧ c ≠ '"' := by
  constructor <;> rintro rfl <;> exact absurd h (by decide)

theorem intChars_good (i : Int) : ∀ c ∈ intChars i, c ≠ ',' ∧ c ≠ '"' := by
  intro c hc
  unfold intChars at hc
  split at hc
  · rcases List.mem_cons.mp hc with rfl | hmem
    · exact ⟨by decide, by decide⟩
    · exact goodChar_digit (natChars_digits _ _ hmem)
  · exact goodChar_digit (natChars_digits _ _ hc)

theorem padChars_good {cs : List Char} (k : Nat)
    (h : ∀ c ∈ cs, c.isDigit = true) :
    ∀ c ∈ padChars cs k, c ≠ ',' ∧ c ≠ '"' := by
  intro c hc
  unfold padChars at hc
  rcases List.mem_append.mp hc with hm | hm
  · rw [List.eq_of_mem_replicate hm]
    exact ⟨by decide, by decide⟩
  · exact goodChar_digit (h c hm)

theorem renderFixedChars_good (q : ℚ) (k : Nat) :
    ∀ c ∈ renderFixedChars q k, c ≠ ',' ∧ c ≠ '"' := by
  intro c hc
  unfold renderFixedChars at hc
  rcases List.mem_append.mp hc with hm | hm
  · rcases List.mem_append.mp hm with hm2 | hm2
    · split at hm2
      · rw [List.mem_singleton.mp hm2]
        exact ⟨by decide, by decide⟩
      · simp at hm2
    · exact goodChar_digit (natChars_digits _ _ hm2)
  · rcases List.mem_cons.mp hm with rfl | hm2
    · exact ⟨by decide, by decide⟩
    · exact padChars_good k (natChars_digits _) c hm2

theorem renderRatChars_good (q : ℚ) :
    ∀ c ∈ renderRatChars q, c ≠ ',' ∧ c ≠ '"' := by
  intro c hc
  unfold renderRatChars at hc
  split at hc
  · exact intChars_good _ _ hc
  · split at hc
    · exact renderFixedChars_good _ _ _ hc
    · rcases List.mem_append.mp hc with hm | hm
      · exact intChars_good _ _ hm
      · rcases List.mem_cons.mp hm with rfl | hm2
        · exact ⟨by decide, by decide⟩
        · exact goodChar_digit (natChars_digits _ _ hm2)

theorem strContains_eq_false {s : String} {c : Char}
    (h : ∀ d ∈ s.toList, d ≠ c) : strContains s c = false := by
  unfold strContains
  by_contra hcon
  rw [Bool.not_eq_false] at hcon
  exact h c (List.mem_of_elem_eq_true hcon) rfl

theorem renderRat_no_comma (q : ℚ) : strContains (renderRat q) ',' = false :=
  strContains_eq_false (fun d hd => (renderRatChars_good q d hd).1)

theorem renderRat_no_quote (q : ℚ) : strContains (renderRat q) '"' = false :=
  strContains_eq_false (fun d hd => (renderRatChars_good q d hd).2)

theorem csvCell_eq_spec (v : Value) : csvCell v = specCsvCell v := by
  unfold csvCell specCsvCell
  by_cases hf : isFalsy v = true
  · rw [if_pos hf, if_pos hf]
  · rw [if_neg hf, if_neg hf]
    cases v with
    | str s => rfl
    | num q =>
      have h1 := renderRat_no_comma q
      have h2 := renderRat_no_quote q
      simp [specStringify, specEscape, h1, h2]

theorem csvField_eq_spec (r : TableRow) (col : String) :
    csvField r col = specCsvField r col := by
  unfold csvField specCsvField
  cases r.lookup (if col = "ID" then "id" else col) with
  | none => rfl
  | some v => exact csvCell_eq_spec v

/-- C8 (confirmed): the CSV serializer emits the comma-joined columns
as its first line and then, per row in order, one line of fields,
where each field is the stringified row value for the column (field
name id for the ID column), empty when absent or falsy, wrapped in
doubled double quotes whenever the stringified value contains a comma
or a double quote; the value He said, quote hi unquote serializes to
its doubled-quote form. -/
theorem claim_C8 :
    (∀ data : TableData,
      exportToCSV data =
        String.intercalate "\n"
          (String.intercalate "," data.columns ::
            data.rows.map (fun r =>
              String.intercalate "," (data.columns.map (specCsvField r))))) ∧
    exportToCSV ⟨["ID", "Msg"], [⟨1, [("Msg", Value.str "He said, \"hi\"")]⟩]⟩ =
      "ID,Msg\n1,\"He said, \"\"hi\"\"\"" := by
  constructor
  · intro data
    have h : csvField = specCsvField :=
      funext fun r => funext fun col => csvField_eq_spec r col
    unfold exportToCSV
    rw [h]
  · decide
